import Mathlib

/-!
Verification of the `automate-splunk-suppression` repository against its
natural-language specification.

The repository consists of two small Python batch jobs:

* `synthetic_data_generator.py` — builds a randomized dataset of synthetic
  "EDR notable" alert rows spanning the last 90 days, injects a fraction of
  exact duplicates with status "closed without escalation", shuffles, and
  writes a CSV file.
* `data_viz.py` — reads such a CSV, filters rows to a lookback window and
  the status "closed without escalation", groups by five columns, counts
  group sizes, keeps groups at or above a minimum cluster size, sorts the
  surviving groups by count descending and prints them.

This file is a shallow embedding of both programs.  Conventions:

* Timestamps are modelled as `Int` values measured in days; the generator
  writes `now - day_offset` where the Python code writes
  `(datetime.today() - timedelta(days=day_offset)).isoformat()`, and the
  summarizer's cutoff `datetime.today() - timedelta(days=LOOKBACK_DAYS)`
  becomes `now - lookbackDays`.  Comparisons of ISO-8601 strings agree
  with comparisons of the underlying times, so nothing is lost.
* IPv4 addresses are modelled by their 32-bit integer value (`Nat`); the
  Python code stores the dotted-quad string `str(net[host_int])`, and the
  conversion is injective, so equality-based grouping is unaffected.
* Every call to the `random` module is modelled by an explicit oracle
  argument: a random index into a pool becomes an arbitrary `Nat` reduced
  modulo the pool size, and the weighted choices become an arbitrary `Nat`
  reduced modulo the total weight.  All theorems quantify over the oracle,
  so they hold for every outcome the Python program can produce.
* `pandas.DataFrame.sample(frac=1)` (the final shuffle) is modelled by
  `shuffleWith`, which consumes an oracle of indices and can realise every
  permutation of the input list.
* Fallible steps (`int(...)` on command-line arguments, `read_csv`) are
  modelled with `Except`/`Option`.
-/

namespace SplunkSuppression

/-! ### Data model

One alert row, with the columns written by `synth_row` in
`synthetic_data_generator.py` and read back by `data_viz.py`. -/

structure Row where
  time : Int
  src : Nat
  dest : Nat
  signature : String
  category : String
  file_name : String
  severity : String
  user : String
  status_label : String
deriving DecidableEq, Repr, Inhabited

/-- The five grouping columns of `data_viz.py`:
`GROUP_COLS = ["src", "dest", "user", "signature", "severity"]`. -/
structure GroupKey where
  src : Nat
  dest : Nat
  user : String
  signature : String
  severity : String
deriving DecidableEq, Repr, Inhabited

/-- Projection of a row onto the five grouping columns
(`df.loc[filt, GROUP_COLS]`). -/
def groupKey (r : Row) : GroupKey :=
  ⟨r.src, r.dest, r.user, r.signature, r.severity⟩

def statusNoEsc : String := "closed without escalation"

def statusEsc : String := "closed with escalation"

/-! ### Summarizer (`data_viz.py`) -/

/-- `cutoff = datetime.today() - timedelta(days=LOOKBACK_DAYS)`. -/
def cutoff (now lookbackDays : Int) : Int := now - lookbackDays

/-- The row filter of `data_viz.py` line 43:
`(df["_time"] >= cutoff) & (df["status_label"] == "closed without escalation")`. -/
def rowKept (c : Int) (r : Row) : Bool :=
  decide (c ≤ r.time) && (r.status_label == statusNoEsc)

/-- `focus = df.loc[filt, GROUP_COLS]`: the filtered rows projected onto the
grouping columns. -/
def focus (df : List Row) (now lookbackDays : Int) : List GroupKey :=
  (df.filter (rowKept (cutoff now lookbackDays))).map groupKey

/-- Comparator used to model the descending sorts: `value_counts()` sorts by
count descending, as does `.sort_values("alert_count", ascending=False)`. -/
def byCountDesc (a b : GroupKey × Nat) : Bool := decide (b.2 ≤ a.2)

/-- `focus.value_counts()`: the count of each distinct key combination,
sorted by count descending. -/
def value_counts (df : List Row) (now lookbackDays : Int) : List (GroupKey × Nat) :=
  let ks := focus df now lookbackDays
  ((ks.dedup).map (fun k => (k, ks.count k))).mergeSort byCountDesc

/-- Lines 51–55 of `data_viz.py`:
`focus.value_counts().reset_index(name="alert_count")
  .query("alert_count >= @MIN_CLUSTER")
  .sort_values("alert_count", ascending=False)`. -/
def summary (df : List Row) (now lookbackDays minCluster : Int) : List (GroupKey × Nat) :=
  ((value_counts df now lookbackDays).filter
      (fun p => decide (minCluster ≤ (p.2 : Int)))).mergeSort byCountDesc

/-- What `main` prints before exiting. -/
inductive Report where
  | noMatching
  | noClusters (minCluster : Int)
  | table (clusters : List (GroupKey × Nat))
deriving DecidableEq, Repr

/-- The body of `main()` in `data_viz.py` after the CSV has been parsed:
the produced report together with the process exit status (`sys.exit()`
with no argument exits with status 0, as does falling off the end of
`main`). -/
def mainReport (df : List Row) (now lookbackDays minCluster : Int) : Report × Nat :=
  let f := focus df now lookbackDays
  if f.isEmpty then
    (.noMatching, 0)
  else
    let s := summary df now lookbackDays minCluster
    if s.isEmpty then (.noClusters minCluster, 0) else (.table s, 0)

/-! ### Command-line parsing

`int(s)` in Python accepts an optionally signed decimal literal with
optional surrounding whitespace; single underscores are allowed between
digits.  `pyInt` models this grammar (over ASCII digits); a string outside
the grammar makes `int` raise `ValueError`, modelled by `none`. -/

/-- Digits of a decimal literal after the first digit, allowing single
underscores between digits, accumulating the value. -/
def digitsCore : List Char → Nat → Option Nat
  | [], acc => some acc
  | '_' :: c :: cs, acc =>
    if c.isDigit then digitsCore cs (acc * 10 + (c.toNat - 48)) else none
  | ['_'], _ => none
  | c :: cs, acc =>
    if c.isDigit then digitsCore cs (acc * 10 + (c.toNat - 48)) else none

/-- An unsigned decimal literal: at least one digit, then `digitsCore`. -/
def pyIntCore : List Char → Option Nat
  | c :: cs => if c.isDigit then digitsCore cs (c.toNat - 48) else none
  | [] => none

/-- Whitespace characters stripped by `int()` (the ASCII ones). -/
def isSpaceChar (c : Char) : Bool :=
  c == ' ' || c == '\t' || c == '\n' || c == '\r' || c == '\x0b' || c == '\x0c'

/-- Strip leading and trailing whitespace. -/
def trimChars (l : List Char) : List Char :=
  ((l.dropWhile isSpaceChar).reverse.dropWhile isSpaceChar).reverse

/-- Model of Python `int(s)` for a string argument. -/
def pyInt (s : String) : Option Int :=
  match trimChars s.data with
  | '-' :: rest => (pyIntCore rest).map (fun n => -(n : Int))
  | '+' :: rest => (pyIntCore rest).map (fun n => (n : Int))
  | l => (pyIntCore l).map (fun n => (n : Int))

def LOOKBACK_DAYS : Int := 30

def MIN_CLUSTER : Int := 5

/-- `parse_cli()` of `data_viz.py`: `argv` is `sys.argv` (program name
first).  Returns the effective `(LOOKBACK_DAYS, MIN_CLUSTER)`; a
non-integer argument raises `ValueError`, modelled as `Except.error`.
(The CSV-path argument needs no parsing and is handled by the caller.) -/
def parse_cli (argv : List String) : Except String (Int × Int) := do
  let lb ← match argv[2]? with
    | none => Except.ok LOOKBACK_DAYS
    | some s => match pyInt s with
      | some n => Except.ok n
      | none => Except.error ("invalid literal for int: " ++ s)
  let mc ← match argv[3]? with
    | none => Except.ok MIN_CLUSTER
    | some s => match pyInt s with
      | some n => Except.ok n
      | none => Except.error ("invalid literal for int: " ++ s)
  Except.ok (lb, mc)

/-- `main()` of `data_viz.py`.  `file` models the result of
`pd.read_csv(CSV_IN, ...)`: `none` when the file is missing or malformed
(in which case `read_csv` raises).  `parse_cli` runs first, exactly as in
the source, so a bad numeric argument errors before the file is touched. -/
def data_viz_main (argv : List String) (file : Option (List Row)) (now : Int) :
    Except String (Report × Nat) := do
  let (lb, mc) ← parse_cli argv
  match file with
  | none => Except.error "read_csv failed"
  | some df => Except.ok (mainReport df now lb mc)

/-! ### Generator (`synthetic_data_generator.py`) -/

def ROWS_DEFAULT : Nat := 20000

/-- Network address of `SRC_NET = ipaddress.ip_network("10.0.0.0/16")`. -/
def SRC_BASE : Nat := 167772160

/-- Network address of `DEST_NET = ipaddress.ip_network("192.168.0.0/16")`. -/
def DEST_BASE : Nat := 3232235520

/-- `num_addresses` of a /16 network. -/
def NET16_SIZE : Nat := 65536

def SIGNATURES : List String :=
  ["EICAR-TEST-FILE", "Meterpreter Beacon", "Cobalt Strike Loader",
   "Unknown Hash Hit", "Suspicious PowerShell", "Ransomware Behaviour"]

def CATEGORIES : List String :=
  ["malware", "command-and-control", "lateral-movement",
   "priv-esc", "persistence", "exfiltration"]

def FILENAMES : List String :=
  ["calc.exe", "svchost.exe", "powershell.exe", "runme.tmp",
   "install.ps1", "invoice.docx", "setup.msi"]

def SEVERITIES : List String := ["low", "medium", "high", "critical"]

/-- Zero-padding of `f"{i:03}"` for the user pool. -/
def pad3 (n : Nat) : String :=
  if n < 10 then "00" ++ toString n
  else if n < 100 then "0" ++ toString n
  else toString n

/-- `USERS = [f"CORP\\user{i:03}" for i in range(1, 201)]`. -/
def USERS : List String := (List.range 200).map (fun i => "CORP\\user" ++ pad3 (i + 1))

/-- `random_ip(net)`: `host_int = random.randint(1, net.num_addresses - 2)`
and `net[host_int]` is the network address plus `host_int`.  The oracle
value `r` is reduced to the inclusive range `[1, num_addresses - 2]`. -/
def random_ip (base numAddresses : Nat) (r : Nat) : Nat :=
  base + (1 + r % (numAddresses - 2))

/-- `random.choice(pool)`: an oracle-selected element of the pool. -/
def choice (pool : List String) (r : Nat) : String :=
  pool.getD (r % pool.length) ""

/-- `random.choices(SEVERITIES, weights=[4, 4, 2, 1])[0]`: the oracle value
is reduced modulo the total weight 11 and mapped through the cumulative
weights. -/
def weightedSeverity (r : Nat) : String :=
  let t := r % 11
  if t < 4 then "low" else if t < 8 then "medium" else if t < 10 then "high" else "critical"

/-- `random.choices(list(STATUS_WEIGHTS), weights=(0.8, 0.2))[0]`: the
oracle value is reduced modulo 5 against cumulative weights 4 : 1. -/
def weightedStatus (r : Nat) : String :=
  if r % 5 < 4 then statusNoEsc else statusEsc

/-- The random draws consumed by one call of `synth_row`. -/
structure RowRand where
  srcR : Nat
  destR : Nat
  sigR : Nat
  catR : Nat
  fileR : Nat
  sevR : Nat
  userR : Nat
  statR : Nat
deriving DecidableEq, Repr, Inhabited

/-- `synth_row(day_offset)`: one synthetic notable.
`event_time = datetime.today() - timedelta(days=day_offset)`. -/
def synth_row (now : Int) (day_offset : Nat) (ρ : RowRand) : Row :=
  { time := now - day_offset
    src := random_ip SRC_BASE NET16_SIZE ρ.srcR
    dest := random_ip DEST_BASE NET16_SIZE ρ.destR
    signature := choice SIGNATURES ρ.sigR
    category := choice CATEGORIES ρ.catR
    file_name := choice FILENAMES ρ.fileR
    severity := weightedSeverity ρ.sevR
    user := choice USERS ρ.userR
    status_label := weightedStatus ρ.statR }

/-- `per_day = rows // 90 or 1`: the Python `or` replaces a zero quotient
by 1. -/
def per_day (rows : Nat) : Nat :=
  if rows / 90 == 0 then 1 else rows / 90

/-- `remainder = rows - per_day * 90`, which is negative when `rows < 90`;
`range` of a negative number is empty, so the loop count is the clamped
value. -/
def remainderCount (rows : Nat) : Nat :=
  ((rows : Int) - (per_day rows : Int) * 90).toNat

/-- The `for offset in range(90): for _ in range(per_day)` loop: `per_day`
rows for each of the 90 day offsets.  `o` is the oracle stream, one
`RowRand` per generated row. -/
def dayPart (rows : Nat) (now : Int) (o : Nat → RowRand) : List Row :=
  (List.range 90).flatMap (fun offset =>
    (List.range (per_day rows)).map (fun j =>
      synth_row now offset (o (offset * per_day rows + j))))

/-- The `for _ in range(remainder)` loop: remainder rows on oracle-chosen
day offsets `random.randint(0, 89)`. -/
def remPart (rows : Nat) (now : Int) (o : Nat → RowRand) (remDay : Nat → Nat) : List Row :=
  (List.range (remainderCount rows)).map (fun j =>
    synth_row now (remDay j % 90) (o (90 * per_day rows + j)))

/-- `records` / `df` before duplicate injection. -/
def baseRecords (rows : Nat) (now : Int) (o : Nat → RowRand) (remDay : Nat → Nat) : List Row :=
  dayPart rows now o ++ remPart rows now o remDay

/-- `dupe_count = int(rows * PROOF_DUPLICATE_RATIO)` with ratio 0.05.
`int(rows * 0.05) = rows * 5 / 100` (truncating division) for every row
count in the supported range. -/
def dupe_count (rows : Nat) : Nat := rows * 5 / 100

/-- The injected duplicates: `dupe_sample = df.sample(dupe_count).copy();
dupe_sample["status_label"] = "closed without escalation"`.  The sampled
positions are oracle-chosen indices into `df`. -/
def dupeRows (rows : Nat) (now : Int) (o : Nat → RowRand) (remDay sampleIdx : Nat → Nat) :
    List Row :=
  let df := baseRecords rows now o remDay
  (List.range (dupe_count rows)).map (fun j =>
    let r := df.getD (sampleIdx j % df.length) default
    { r with status_label := statusNoEsc })

/-- `df.sample(frac=1)`: the final shuffle, modelled by drawing an
oracle-chosen element and recursing; every permutation of the input is
realisable by a suitable seed list, and for every seed list the result is
a permutation of the input. -/
def shuffleWith : List Nat → List Row → List Row
  | [], l => l
  | _ :: _, [] => []
  | s :: ss, l@(_ :: _) =>
    let i := s % l.length
    l.getD i default :: shuffleWith ss (l.eraseIdx i)

/-- `generate_notables(rows)`: base records, then duplicate injection
(`pd.concat([df, dupe_sample])`), then shuffle. -/
def generate_notables (rows : Nat) (now : Int) (o : Nat → RowRand)
    (remDay sampleIdx : Nat → Nat) (shufSeeds : List Nat) : List Row :=
  shuffleWith shufSeeds (baseRecords rows now o remDay ++ dupeRows rows now o remDay sampleIdx)

/-- `main()` of `synthetic_data_generator.py`: parse the row count (a bad
literal raises before anything is generated or written), generate, and
report the rows to be written together with the output path.  Negative
row counts are outside the spec's domain ("desired row count (positive
integer)"), so the parsed value is clamped to `Nat`. -/
def gen_main (argv : List String) (now : Int) (o : Nat → RowRand)
    (remDay sampleIdx : Nat → Nat) (shufSeeds : List Nat) :
    Except String (List Row × String) := do
  let totalRows ← match argv[1]? with
    | none => Except.ok (ROWS_DEFAULT : Int)
    | some s => match pyInt s with
      | some n => Except.ok n
      | none => Except.error ("invalid literal for int: " ++ s)
  let df := generate_notables totalRows.toNat now o remDay sampleIdx shufSeeds
  let out := if argv.length ≤ 2 then "notables.csv" else argv.getD 2 ""
  Except.ok (df, out)

/-! ### Derived notions used by the statements -/

/-- Number of rows of `l` whose five grouping columns equal `k`. -/
def countKey (l : List Row) (k : GroupKey) : Nat :=
  l.countP (fun r => groupKey r == k)

/-- A concrete row used to instantiate theorems: a non-escalated alert at
time 0. -/
def exampleRow : Row :=
  { time := 0
    src := SRC_BASE + 5
    dest := DEST_BASE + 7
    signature := "EICAR-TEST-FILE"
    category := "malware"
    file_name := "calc.exe"
    severity := "low"
    user := "CORP\\user001"
    status_label := statusNoEsc }

/-! ### Helper lemmas -/

theorem getD_cons_eraseIdx_perm {α : Type _} [Inhabited α] (l : List α) (i : Nat)
    (h : i < l.length) : List.Perm (l.getD i default :: l.eraseIdx i) l := by
  induction l generalizing i with
  | nil => simp at h
  | cons a t ih =>
    cases i with
    | zero => simp
    | succ i =>
      have h' : i < t.length := by simpa using h
      have step : List.Perm (t.getD i default :: t.eraseIdx i) t := ih i h'
      have swap : List.Perm (t.getD i default :: a :: t.eraseIdx i)
          (a :: t.getD i default :: t.eraseIdx i) := List.Perm.swap _ _ _
      have : (a :: t).getD (i + 1) default :: (a :: t).eraseIdx (i + 1)
          = t.getD i default :: a :: t.eraseIdx i := by simp [List.getD]
      rw [this]
      exact swap.trans (step.cons a)

theorem shuffleWith_perm (ss : List Nat) (l : List Row) :
    List.Perm (shuffleWith ss l) l := by
  induction ss generalizing l with
  | nil => simp [shuffleWith]
  | cons s ss ih =>
    cases l with
    | nil => simp [shuffleWith]
    | cons a t =>
      have hlt : s % (a :: t).length < (a :: t).length :=
        Nat.mod_lt _ (by simp)
      exact ((ih _).cons _).trans (getD_cons_eraseIdx_perm _ _ hlt)

theorem shuffleWith_length (ss : List Nat) (l : List Row) :
    (shuffleWith ss l).length = l.length :=
  (shuffleWith_perm ss l).length_eq

theorem per_day_pos (rows : Nat) : 1 ≤ per_day rows := by
  unfold per_day
  by_cases h : rows / 90 = 0
  · simp [h]
  · simp [h]
    omega

theorem dayPart_length (rows : Nat) (now : Int) (o : Nat → RowRand) :
    (dayPart rows now o).length = 90 * per_day rows := by
  rw [dayPart, List.flatMap, List.length_flatten, List.map_map]
  have h : (List.length ∘ fun offset =>
      (List.range (per_day rows)).map (fun j =>
        synth_row now offset (o (offset * per_day rows + j)))) = fun _ => per_day rows := by
    funext offset
    simp
  rw [h, List.map_const', List.sum_replicate, List.length_range, smul_eq_mul]

theorem remPart_length (rows : Nat) (now : Int) (o : Nat → RowRand) (remDay : Nat → Nat) :
    (remPart rows now o remDay).length = remainderCount rows := by
  simp [remPart]

theorem baseRecords_length (rows : Nat) (now : Int) (o : Nat → RowRand) (remDay : Nat → Nat) :
    (baseRecords rows now o remDay).length = 90 * per_day rows + remainderCount rows := by
  simp [baseRecords, dayPart_length, remPart_length]

theorem baseRecords_length_pos (rows : Nat) (now : Int) (o : Nat → RowRand)
    (remDay : Nat → Nat) : 0 < (baseRecords rows now o remDay).length := by
  rw [baseRecords_length]
  have := per_day_pos rows
  omega

theorem dupeRows_length (rows : Nat) (now : Int) (o : Nat → RowRand)
    (remDay sampleIdx : Nat → Nat) :
    (dupeRows rows now o remDay sampleIdx).length = dupe_count rows := by
  simp [dupeRows]

theorem countP_flatMap {α β : Type _} (l : List α) (f : α → List β) (q : β → Bool) :
    (l.flatMap f).countP q = (l.map (fun a => (f a).countP q)).sum := by
  induction l with
  | nil => rfl
  | cons a t ih =>
    rw [List.flatMap_cons, List.countP_append, List.map_cons, List.sum_cons, ih]

theorem sum_map_ite_range (n off p : Nat) (h : off < n) :
    ((List.range n).map (fun i => if i = off then p else 0)).sum = p := by
  induction n with
  | zero => omega
  | succ n ih =>
    rw [List.range_succ, List.map_append, List.sum_append]
    by_cases hoff : off = n
    · subst hoff
      have hz : ((List.range off).map (fun i => if i = off then p else 0)).sum = 0 := by
        apply List.sum_eq_zero
        intro x hx
        rw [List.mem_map] at hx
        obtain ⟨i, hi, rfl⟩ := hx
        rw [List.mem_range] at hi
        simp [Nat.ne_of_lt hi]
      rw [hz]
      simp
    · have hlt : off < n := by omega
      rw [ih hlt, List.map_singleton, List.sum_singleton, if_neg (by omega)]
      omega

/-- Each day offset of the day loop contributes exactly `per_day rows` rows
bearing that day's timestamp. -/
theorem dayPart_day_count (rows : Nat) (now : Int) (o : Nat → RowRand) (off : Nat)
    (hoff : off < 90) :
    (dayPart rows now o).countP (fun r => r.time == now - (off : Int)) = per_day rows := by
  rw [dayPart, countP_flatMap]
  have hfun : (fun a => ((List.range (per_day rows)).map (fun j =>
        synth_row now a (o (a * per_day rows + j)))).countP
          (fun r => r.time == now - (off : Int))) =
      (fun a => if a = off then per_day rows else 0) := by
    funext a
    rw [List.countP_map]
    by_cases ha : a = off
    · subst ha
      have : ((fun r => r.time == now - (a : Int)) ∘ fun j =>
          synth_row now a (o (a * per_day rows + j))) = fun _ => true := by
        funext j
        simp [synth_row, Function.comp]
      rw [this, List.countP_true, List.length_range, if_pos rfl]
    · have : ((fun r => r.time == now - (off : Int)) ∘ fun j =>
          synth_row now a (o (a * per_day rows + j))) = fun _ => false := by
        funext j
        simp only [Function.comp, synth_row]
        simp only [beq_eq_false_iff_ne, ne_eq, sub_right_inj, Int.natCast_inj]
        exact ha
      rw [this, List.countP_false, if_neg ha]
      rfl
  rw [hfun]
  exact sum_map_ite_range 90 off (per_day rows) hoff

theorem per_day_of_ge (rows : Nat) (h : 90 ≤ rows) : per_day rows = rows / 90 := by
  unfold per_day
  have h0 : rows / 90 ≠ 0 := by omega
  simp [h0]

theorem remainderCount_of_ge (rows : Nat) (h : 90 ≤ rows) :
    remainderCount rows = rows % 90 := by
  rw [remainderCount, per_day_of_ge rows h]
  omega

theorem dupe_count_eq (rows : Nat) : dupe_count rows = rows / 20 := by
  unfold dupe_count
  omega

theorem getD_mem_of_lt {α : Type _} (l : List α) (i : Nat) (d : α) (h : i < l.length) :
    l.getD i d ∈ l := by
  rw [List.getD_eq_getElem?_getD, List.getElem?_eq_getElem h, Option.getD_some]
  exact List.getElem_mem h

theorem baseRecords_mem (rows : Nat) (now : Int) (o : Nat → RowRand) (remDay : Nat → Nat) :
    ∀ r ∈ baseRecords rows now o remDay, ∃ off ρ, r = synth_row now off ρ := by
  intro r hr
  rw [baseRecords, List.mem_append] at hr
  rcases hr with hr | hr
  · rw [dayPart, List.mem_flatMap] at hr
    obtain ⟨off, _, hr⟩ := hr
    rw [List.mem_map] at hr
    obtain ⟨j, _, rfl⟩ := hr
    exact ⟨off, _, rfl⟩
  · rw [remPart, List.mem_map] at hr
    obtain ⟨j, _, rfl⟩ := hr
    exact ⟨_, _, rfl⟩

theorem dupeRows_mem (rows : Nat) (now : Int) (o : Nat → RowRand)
    (remDay sampleIdx : Nat → Nat) :
    ∀ d ∈ dupeRows rows now o remDay sampleIdx,
      ∃ s ∈ baseRecords rows now o remDay,
        d = { s with status_label := statusNoEsc } := by
  intro d hd
  simp only [dupeRows, List.mem_map, List.mem_range] at hd
  obtain ⟨j, hj, rfl⟩ := hd
  have hpos : 0 < (baseRecords rows now o remDay).length :=
    baseRecords_length_pos rows now o remDay
  have hi : sampleIdx j % (baseRecords rows now o remDay).length <
      (baseRecords rows now o remDay).length := Nat.mod_lt _ hpos
  exact ⟨_, getD_mem_of_lt _ _ _ hi, rfl⟩

theorem choice_mem (pool : List String) (r : Nat) (h : pool ≠ []) : choice pool r ∈ pool := by
  rw [choice]
  exact getD_mem_of_lt _ _ _ (Nat.mod_lt _ (List.length_pos.mpr h))

theorem weightedSeverity_mem (r : Nat) : weightedSeverity r ∈ SEVERITIES := by
  simp only [weightedSeverity]
  split
  · simp [SEVERITIES]
  · split
    · simp [SEVERITIES]
    · split
      · simp [SEVERITIES]
      · simp [SEVERITIES]

theorem weightedStatus_cases (r : Nat) :
    weightedStatus r = statusNoEsc ∨ weightedStatus r = statusEsc := by
  unfold weightedStatus
  split
  · exact Or.inl rfl
  · exact Or.inr rfl

theorem random_ip_bounds (base r : Nat) :
    base + 1 ≤ random_ip base NET16_SIZE r ∧ random_ip base NET16_SIZE r ≤ base + 65534 := by
  unfold random_ip NET16_SIZE
  have h : r % (65536 - 2) < 65536 - 2 := Nat.mod_lt _ (by omega)
  omega

theorem synth_row_invariants (now : Int) (off : Nat) (ρ : RowRand) :
    (synth_row now off ρ).severity ∈ SEVERITIES ∧
    ((synth_row now off ρ).status_label = statusNoEsc ∨
      (synth_row now off ρ).status_label = statusEsc) ∧
    SRC_BASE + 1 ≤ (synth_row now off ρ).src ∧ (synth_row now off ρ).src ≤ SRC_BASE + 65534 ∧
    DEST_BASE + 1 ≤ (synth_row now off ρ).dest ∧
      (synth_row now off ρ).dest ≤ DEST_BASE + 65534 := by
  refine ⟨weightedSeverity_mem _, weightedStatus_cases _, ?_, ?_, ?_, ?_⟩
  · exact (random_ip_bounds SRC_BASE ρ.srcR).1
  · exact (random_ip_bounds SRC_BASE ρ.srcR).2
  · exact (random_ip_bounds DEST_BASE ρ.destR).1
  · exact (random_ip_bounds DEST_BASE ρ.destR).2

/-! ### Claim theorems -/

/-- **C1**: a row contributes to the summarizer's grouping and counting if
and only if its timestamp is at least `now - lookbackDays` (inclusive lower
bound, no upper bound, so future-dated rows pass) and its status equals
exactly "closed without escalation": the filter keeps exactly those rows,
and the count of every group key equals the number of rows satisfying that
condition with that key. -/
theorem summarizer_filter_characterization (df : List Row) (now lookbackDays : Int)
    (k : GroupKey) (r : Row) :
    (rowKept (cutoff now lookbackDays) r = true ↔
      now - lookbackDays ≤ r.time ∧ r.status_label = statusNoEsc) ∧
    (focus df now lookbackDays).count k =
      df.countP (fun x =>
        decide (now - lookbackDays ≤ x.time ∧ x.status_label = statusNoEsc ∧
          groupKey x = k)) := by
  constructor
  · simp [rowKept, cutoff]
  · rw [focus, List.count_eq_countP, List.countP_map, List.countP_filter]
    congr 1
    funext x
    rw [Bool.eq_iff_iff]
    simp [rowKept, cutoff, Function.comp]
    tauto

/-- **C4**: for a fixed input and lookback window, raising the minimum
cluster size can only shrink the report: the clusters reported at the
larger threshold are a subset of those reported at the smaller one, and
their number never increases. -/
theorem summary_threshold_monotone (df : List Row) (now lookbackDays m1 m2 : Int)
    (h : m1 ≤ m2) :
    summary df now lookbackDays m2 ⊆ summary df now lookbackDays m1 ∧
    (summary df now lookbackDays m2).length ≤ (summary df now lookbackDays m1).length := by
  constructor
  · intro p hp
    rw [summary, List.mem_mergeSort, List.mem_filter] at hp
    rw [summary, List.mem_mergeSort, List.mem_filter]
    refine ⟨hp.1, ?_⟩
    exact decide_eq_true (le_trans h (of_decide_eq_true hp.2))
  · rw [summary, summary, List.length_mergeSort, List.length_mergeSort,
      ← List.countP_eq_length_filter, ← List.countP_eq_length_filter]
    refine List.countP_mono_left ?_
    intro x _ hx2
    exact decide_eq_true (le_trans h (of_decide_eq_true hx2))

/-- Witness for `summary_threshold_monotone` at a concrete input. -/
theorem summary_threshold_monotone_witness :
    summary [exampleRow] 0 30 2 ⊆ summary [exampleRow] 0 30 1 ∧
    (summary [exampleRow] 0 30 2).length ≤ (summary [exampleRow] 0 30 1).length :=
  summary_threshold_monotone [exampleRow] 0 30 1 2 (by decide)

/-- **C5**: the summarizer always terminates with success status (exit code
0), reporting "no matching alerts" when the filter leaves no rows,
"no clusters ≥ threshold" when rows remain but no group reaches the
minimum cluster size, and the cluster table otherwise. -/
theorem mainReport_success_cases (df : List Row) (now lookbackDays minCluster : Int) :
    (mainReport df now lookbackDays minCluster).2 = 0 ∧
    (mainReport df now lookbackDays minCluster).1 =
      (if (focus df now lookbackDays).isEmpty then Report.noMatching
       else if (summary df now lookbackDays minCluster).isEmpty then
         Report.noClusters minCluster
       else Report.table (summary df now lookbackDays minCluster)) := by
  constructor
  · simp only [mainReport]
    split
    · rfl
    · split
      · rfl
      · rfl
  · simp only [mainReport]
    split
    · rfl
    · split
      · rfl
      · rfl

/-- **C8 counterexample**: the summarizer's cutoff is computed from the
wall clock, so two runs on the same unmodified file with the same
parameters but different clock readings can produce different output: on a
file with one non-escalated alert at time 0, a run with the clock at 0
reports a cluster while a run with the clock at 100 reports "no matching
alerts". -/
theorem summarizer_clock_counterexample :
    mainReport [exampleRow] 0 30 1 ≠ mainReport [exampleRow] 100 30 1 := by
  have h2 : mainReport [exampleRow] 100 30 1 = (Report.noMatching, 0) := by decide
  rw [Ne, h2]
  simp only [mainReport]
  have h3 : (focus [exampleRow] 0 30).isEmpty = false := by decide
  rw [h3]
  simp only [Bool.false_eq_true, if_false]
  split
  · simp
  · simp

/-- **C8 amended**: running the summarizer twice on the same unmodified
input with the same parameters yields identical output provided both runs
observe the same current time; the pipeline is a pure function of the file
contents, the clock reading and the two numeric parameters. -/
theorem summarizer_fixed_clock_deterministic (df : List Row)
    (now1 now2 lookbackDays minCluster : Int) (h : now1 = now2) :
    mainReport df now1 lookbackDays minCluster = mainReport df now2 lookbackDays minCluster := by
  rw [h]

/-- Witness for `summarizer_fixed_clock_deterministic` at a concrete
input. -/
theorem summarizer_fixed_clock_deterministic_witness :
    mainReport [exampleRow] 0 30 1 = mainReport [exampleRow] 0 30 1 :=
  summarizer_fixed_clock_deterministic [exampleRow] 0 0 30 1 rfl

/-- **C7**: invoking the generator with row count 0 completes without
error (`Except.ok`) and produces a near-empty output: exactly 90 rows (the
`or 1` fallback forces one row per day of the 90-day window; the duplicate
count and remainder are 0). -/
theorem generator_zero_rows (now : Int) (o : Nat → RowRand) (remDay sampleIdx : Nat → Nat)
    (ss : List Nat) :
    gen_main ["prog", "0"] now o remDay sampleIdx ss =
      Except.ok (generate_notables 0 now o remDay sampleIdx ss, "notables.csv") ∧
    (generate_notables 0 now o remDay sampleIdx ss).length = 90 := by
  constructor
  · have h0 : pyInt "0" = some 0 := by decide
    simp only [gen_main, h0, List.getElem?_cons_succ, List.getElem?_cons_zero]
    rfl
  · rw [generate_notables, shuffleWith_length, List.length_append, baseRecords_length,
      dupeRows_length]
    decide

/-- **C3 counterexample**: for the requested row count 1, the generated
output has 90 rows (the `or 1` fallback emits one row per day and the
negative remainder loop is skipped), not the 1 + ⌊1·0.05⌋ = 1 rows the
claim requires. -/
theorem generator_small_count_counterexample :
    (generate_notables 1 0 (fun _ => default) (fun _ => 0) (fun _ => 0) []).length = 90 ∧
    (generate_notables 1 0 (fun _ => default) (fun _ => 0) (fun _ => 0) []).length ≠
      1 + dupe_count 1 := by
  have h : (generate_notables 1 0 (fun _ => default) (fun _ => 0) (fun _ => 0) []).length
      = 90 := by
    rw [generate_notables, shuffleWith_length, List.length_append, baseRecords_length,
      dupeRows_length]
    decide
  exact ⟨h, by rw [h]; decide⟩

/-- **C3 amended**: for every requested row count N ≥ 90, the base set is
exactly N rows — N ÷ 90 per day over the 90-day window (the day loop emits
90·(N ÷ 90) rows) and the remaining N mod 90 rows on random days — and the
final output after duplicate injection has exactly N + ⌊N·0.05⌋ rows.  For
0 ≤ N < 90 the per-day count is forced up to 1 and the base set has 90
rows instead. -/
theorem generator_size_amended (rows : Nat) (h : 90 ≤ rows) (now : Int) (o : Nat → RowRand)
    (remDay sampleIdx : Nat → Nat) (ss : List Nat) (off : Nat) (hoff : off < 90) :
    per_day rows = rows / 90 ∧
    (dayPart rows now o).countP (fun r => r.time == now - (off : Int)) = rows / 90 ∧
    (dayPart rows now o).length = 90 * (rows / 90) ∧
    (remPart rows now o remDay).length = rows % 90 ∧
    (baseRecords rows now o remDay).length = rows ∧
    (generate_notables rows now o remDay sampleIdx ss).length = rows + rows / 20 := by
  have hpd := per_day_of_ge rows h
  have hrem := remainderCount_of_ge rows h
  refine ⟨hpd, ?_, ?_, ?_, ?_, ?_⟩
  · rw [dayPart_day_count rows now o off hoff, hpd]
  · rw [dayPart_length, hpd]
  · rw [remPart_length, hrem]
  · rw [baseRecords_length, hpd, hrem]
    omega
  · rw [generate_notables, shuffleWith_length, List.length_append, baseRecords_length,
      dupeRows_length, hpd, hrem, dupe_count_eq]
    omega

/-- Witness for `generator_size_amended` at row count 90. -/
theorem generator_size_amended_witness :
    per_day 90 = 90 / 90 ∧
    (dayPart 90 0 (fun _ => default)).countP (fun r => r.time == 0 - ((3 : Nat) : Int)) =
      90 / 90 ∧
    (dayPart 90 0 (fun _ => default)).length = 90 * (90 / 90) ∧
    (remPart 90 0 (fun _ => default) (fun _ => 0)).length = 90 % 90 ∧
    (baseRecords 90 0 (fun _ => default) (fun _ => 0)).length = 90 ∧
    (generate_notables 90 0 (fun _ => default) (fun _ => 0) (fun _ => 0) []).length =
      90 + 90 / 20 :=
  generator_size_amended 90 (by decide) 0 (fun _ => default) (fun _ => 0) (fun _ => 0) []
    3 (by decide)

/-- **C9**: a non-integer string where an integer argument is expected
makes the job fail fast, before any processing: the summarizer errors on a
bad lookback-days or minimum-cluster argument with a result that does not
depend on the input file (which therefore was not needed), and the
generator errors on a bad row-count argument with a result that does not
depend on any of the random draws (so no row was generated). -/
theorem nonint_argument_fails_fast (a0 a1 a2 s : String) (rest : List String) (n2 : Int)
    (hs : pyInt s = none) (h2 : pyInt a2 = some n2) (file : Option (List Row)) (now : Int)
    (o : Nat → RowRand) (remDay sampleIdx : Nat → Nat) (ss : List Nat) :
    data_viz_main (a0 :: a1 :: s :: rest) file now =
      Except.error ("invalid literal for int: " ++ s) ∧
    data_viz_main (a0 :: a1 :: a2 :: s :: rest) file now =
      Except.error ("invalid literal for int: " ++ s) ∧
    gen_main (a0 :: s :: rest) now o remDay sampleIdx ss =
      Except.error ("invalid literal for int: " ++ s) := by
  refine ⟨?_, ?_, ?_⟩
  · simp only [data_viz_main, parse_cli, hs, List.getElem?_cons_succ, List.getElem?_cons_zero]
    rfl
  · simp only [data_viz_main, parse_cli, hs, h2, List.getElem?_cons_succ,
      List.getElem?_cons_zero]
    rfl
  · simp only [gen_main, hs, List.getElem?_cons_succ, List.getElem?_cons_zero]
    rfl

/-- Witness for `nonint_argument_fails_fast` on the non-integer argument
"abc". -/
theorem nonint_argument_fails_fast_witness :
    data_viz_main ["prog", "file.csv", "abc"] none 0 =
      Except.error ("invalid literal for int: " ++ "abc") ∧
    data_viz_main ["prog", "file.csv", "7", "abc"] none 0 =
      Except.error ("invalid literal for int: " ++ "abc") ∧
    gen_main ["prog", "abc"] 0 (fun _ => default) (fun _ => 0) (fun _ => 0) [] =
      Except.error ("invalid literal for int: " ++ "abc") :=
  nonint_argument_fails_fast "prog" "file.csv" "7" "abc" [] 7 (by decide) (by decide)
    none 0 (fun _ => default) (fun _ => 0) (fun _ => 0) []

/-- **C6**: every row produced by the generator has severity among the four
enumerated levels, status among the two enumerated labels, source address
inside 10.0.0.0/16 excluding that range's first and last address, and
destination address inside 192.168.0.0/16 excluding that range's first and
last address. -/
theorem generated_rows_field_invariants (rows : Nat) (now : Int) (o : Nat → RowRand)
    (remDay sampleIdx : Nat → Nat) (ss : List Nat) :
    ∀ r ∈ generate_notables rows now o remDay sampleIdx ss,
      r.severity ∈ SEVERITIES ∧
      (r.status_label = statusNoEsc ∨ r.status_label = statusEsc) ∧
      SRC_BASE + 1 ≤ r.src ∧ r.src ≤ SRC_BASE + 65534 ∧
      DEST_BASE + 1 ≤ r.dest ∧ r.dest ≤ DEST_BASE + 65534 := by
  intro r hr
  rw [generate_notables] at hr
  have hr' := (shuffleWith_perm ss _).mem_iff.mp hr
  rw [List.mem_append] at hr'
  rcases hr' with hb | hd
  · obtain ⟨off, ρ, rfl⟩ := baseRecords_mem rows now o remDay r hb
    exact synth_row_invariants now off ρ
  · obtain ⟨s, hsmem, rfl⟩ := dupeRows_mem rows now o remDay sampleIdx r hd
    obtain ⟨off, ρ, rfl⟩ := baseRecords_mem rows now o remDay s hsmem
    have h := synth_row_invariants now off ρ
    exact ⟨h.1, Or.inl rfl, h.2.2⟩

set_option maxRecDepth 4000 in
/-- Witness for `generated_rows_field_invariants`: the first row generated
for row count 0 with the zero oracle. -/
theorem generated_rows_field_invariants_witness :
    (synth_row 0 0 default).severity ∈ SEVERITIES ∧
    ((synth_row 0 0 default).status_label = statusNoEsc ∨
      (synth_row 0 0 default).status_label = statusEsc) ∧
    SRC_BASE + 1 ≤ (synth_row 0 0 default).src ∧
      (synth_row 0 0 default).src ≤ SRC_BASE + 65534 ∧
    DEST_BASE + 1 ≤ (synth_row 0 0 default).dest ∧
      (synth_row 0 0 default).dest ≤ DEST_BASE + 65534 :=
  generated_rows_field_invariants 0 0 (fun _ => default) (fun _ => 0) (fun _ => 0) []
    (synth_row 0 0 default) (by decide)

/-- **C10**: every injected duplicate equals its sampled source row in all
columns other than `status_label` — the record update copies timestamp,
category, file name and the five grouping columns unchanged and only
forces `status_label` to "closed without escalation" — so a duplicate
whose source row had status "closed with escalation" differs from that
source in exactly the `status_label` field. -/
theorem injected_duplicates_frame (rows : Nat) (now : Int) (o : Nat → RowRand)
    (remDay sampleIdx : Nat → Nat) (j : Nat) (hj : j < dupe_count rows) :
    (baseRecords rows now o remDay).getD
        (sampleIdx j % (baseRecords rows now o remDay).length) default ∈
      baseRecords rows now o remDay ∧
    (dupeRows rows now o remDay sampleIdx).getD j default =
      { (baseRecords rows now o remDay).getD
          (sampleIdx j % (baseRecords rows now o remDay).length) default with
        status_label := statusNoEsc } ∧
    (((baseRecords rows now o remDay).getD
          (sampleIdx j % (baseRecords rows now o remDay).length) default).status_label =
        statusEsc →
      ((dupeRows rows now o remDay sampleIdx).getD j default).status_label ≠
          ((baseRecords rows now o remDay).getD
            (sampleIdx j % (baseRecords rows now o remDay).length) default).status_label ∧
        (dupeRows rows now o remDay sampleIdx).getD j default ≠
          (baseRecords rows now o remDay).getD
            (sampleIdx j % (baseRecords rows now o remDay).length) default) := by
  have hpos : 0 < (baseRecords rows now o remDay).length :=
    baseRecords_length_pos rows now o remDay
  have hgd : (dupeRows rows now o remDay sampleIdx).getD j default =
      { (baseRecords rows now o remDay).getD
          (sampleIdx j % (baseRecords rows now o remDay).length) default with
        status_label := statusNoEsc } := by
    rw [dupeRows]
    rw [List.getD_eq_getElem?_getD, List.getElem?_map, List.getElem?_range hj]
    rfl
  refine ⟨getD_mem_of_lt _ _ _ (Nat.mod_lt _ hpos), hgd, ?_⟩
  intro hst
  have hne : statusNoEsc ≠ statusEsc := by decide
  have hds : ((dupeRows rows now o remDay sampleIdx).getD j default).status_label =
      statusNoEsc := by
    rw [hgd]
  refine ⟨?_, ?_⟩
  · rw [hds, hst]
    exact hne
  · intro heq
    rw [heq] at hds
    rw [hst] at hds
    exact hne hds.symm

/-- Witness for `injected_duplicates_frame`: the single injected duplicate
at row count 20 with the zero oracle. -/
theorem injected_duplicates_frame_witness :
    (baseRecords 20 0 (fun _ => default) (fun _ => 0)).getD
        ((fun _ => 0) 0 % (baseRecords 20 0 (fun _ => default) (fun _ => 0)).length)
        default ∈
      baseRecords 20 0 (fun _ => default) (fun _ => 0) ∧
    (dupeRows 20 0 (fun _ => default) (fun _ => 0) (fun _ => 0)).getD 0 default =
      { (baseRecords 20 0 (fun _ => default) (fun _ => 0)).getD
          ((fun _ => 0) 0 % (baseRecords 20 0 (fun _ => default) (fun _ => 0)).length)
          default with
        status_label := statusNoEsc } ∧
    (((baseRecords 20 0 (fun _ => default) (fun _ => 0)).getD
          ((fun _ => 0) 0 % (baseRecords 20 0 (fun _ => default) (fun _ => 0)).length)
          default).status_label = statusEsc →
      ((dupeRows 20 0 (fun _ => default) (fun _ => 0) (fun _ => 0)).getD 0
            default).status_label ≠
          ((baseRecords 20 0 (fun _ => default) (fun _ => 0)).getD
            ((fun _ => 0) 0 % (baseRecords 20 0 (fun _ => default) (fun _ => 0)).length)
            default).status_label ∧
        (dupeRows 20 0 (fun _ => default) (fun _ => 0) (fun _ => 0)).getD 0 default ≠
          (baseRecords 20 0 (fun _ => default) (fun _ => 0)).getD
            ((fun _ => 0) 0 % (baseRecords 20 0 (fun _ => default) (fun _ => 0)).length)
            default) :=
  injected_duplicates_frame 20 0 (fun _ => default) (fun _ => 0) (fun _ => 0) 0 (by decide)

/-- **C2**: for every requested row count N and the duplicate ratio 0.05,
at least ⌊N·0.05⌋ = N / 20 rows of the generated dataset have status
"closed without escalation" and agree on all five grouping columns with
some other row of the dataset (a row's group-column combination occurs at
least twice). -/
theorem generator_duplicate_lower_bound (rows : Nat) (now : Int) (o : Nat → RowRand)
    (remDay sampleIdx : Nat → Nat) (ss : List Nat) :
    rows / 20 ≤
      ((generate_notables rows now o remDay sampleIdx ss).filter
          (fun d => d.status_label == statusNoEsc &&
            decide (2 ≤ countKey (generate_notables rows now o remDay sampleIdx ss)
              (groupKey d)))).length := by
  have hperm : List.Perm (generate_notables rows now o remDay sampleIdx ss)
      (baseRecords rows now o remDay ++ dupeRows rows now o remDay sampleIdx) := by
    rw [generate_notables]
    exact shuffleWith_perm ss _
  have hck : ∀ k, countKey (generate_notables rows now o remDay sampleIdx ss) k =
      countKey (baseRecords rows now o remDay ++ dupeRows rows now o remDay sampleIdx) k :=
    fun k => hperm.countP_eq _
  rw [← List.countP_eq_length_filter]
  have hpred : (fun d => d.status_label == statusNoEsc &&
        decide (2 ≤ countKey (generate_notables rows now o remDay sampleIdx ss)
          (groupKey d))) =
      (fun d => d.status_label == statusNoEsc &&
        decide (2 ≤ countKey
          (baseRecords rows now o remDay ++ dupeRows rows now o remDay sampleIdx)
          (groupKey d))) := by
    funext d
    rw [hck]
  rw [hpred, hperm.countP_eq, List.countP_append]
  have hall : ∀ d ∈ dupeRows rows now o remDay sampleIdx,
      (d.status_label == statusNoEsc &&
        decide (2 ≤ countKey
          (baseRecords rows now o remDay ++ dupeRows rows now o remDay sampleIdx)
          (groupKey d))) = true := by
    intro d hd
    obtain ⟨s, hs, rfl⟩ := dupeRows_mem rows now o remDay sampleIdx d hd
    simp only [Bool.and_eq_true, beq_iff_eq, decide_eq_true_eq]
    refine ⟨trivial, ?_⟩
    rw [countKey, List.countP_append]
    have hkey : groupKey { s with status_label := statusNoEsc } = groupKey s := rfl
    have h1 : 0 < (baseRecords rows now o remDay).countP
        (fun r => groupKey r == groupKey { s with status_label := statusNoEsc }) := by
      refine List.countP_pos_iff.mpr ⟨s, hs, ?_⟩
      rw [hkey]
      exact beq_self_eq_true _
    have h2 : 0 < (dupeRows rows now o remDay sampleIdx).countP
        (fun r => groupKey r == groupKey { s with status_label := statusNoEsc }) := by
      refine List.countP_pos_iff.mpr ⟨{ s with status_label := statusNoEsc }, hd, ?_⟩
      exact beq_self_eq_true _
    omega
  have hlen : (dupeRows rows now o remDay sampleIdx).countP
      (fun d => d.status_label == statusNoEsc &&
        decide (2 ≤ countKey
          (baseRecords rows now o remDay ++ dupeRows rows now o remDay sampleIdx)
          (groupKey d))) = dupe_count rows := by
    rw [List.countP_eq_length.mpr hall, dupeRows_length]
  have hdc := dupe_count_eq rows
  omega

end SplunkSuppression
